import Mathlib

/-
Shallow embedding of the snap-protocol AccountFetcher from
packages/client/lib/sync/fetcher/accountfetcher.ts.

Buffers are modelled as lists of bytes (List Nat).  Because the source is
JavaScript and `convertSlimAccount` takes an untyped `body`, JavaScript
values reachable in that function are modelled by the inductive `JsVal`:
a Buffer/Uint8Array, a plain number (what indexing a Buffer yields), an
array, or `undefined`.  Functions that can throw in JavaScript return
`Except Unit _` here.
-/

namespace EthSnap

/-- A JavaScript value as it can appear in the untyped account `body`:
a Buffer (byte list), a number, an array, or `undefined`. -/
inductive JsVal where
  | buf : List Nat → JsVal
  | num : Nat → JsVal
  | arr : List JsVal → JsVal
  | undef : JsVal

/-- Indexing `v[i]` in JavaScript: a Buffer yields the byte as a number
(or `undefined` out of range), an array yields the element (or
`undefined`), a number yields `undefined`, and indexing `undefined`
throws a TypeError. -/
def jsIndexE : JsVal → Nat → Except Unit JsVal
  | .buf l, i => if h : i < l.length then .ok (.num (l.get ⟨i, h⟩)) else .ok .undef
  | .arr l, i => if h : i < l.length then .ok (l.get ⟨i, h⟩) else .ok .undef
  | .num _, _ => .ok .undef
  | .undef, _ => .error ()

mutual
/-- The `arrToBufArr` helper from ethereumjs-util: a Uint8Array becomes a
Buffer with the same bytes, an array is converted element-wise, and any
other value is passed to `Buffer.from`, which throws a TypeError on a
number or on `undefined`. -/
def arrToBufArr : JsVal → Except Unit JsVal
  | .buf l => .ok (.buf l)
  | .arr l =>
    match arrToBufArrList l with
    | .ok l2 => .ok (.arr l2)
    | .error e => .error e
  | .num _ => .error ()
  | .undef => .error ()

/-- Element-wise `arrToBufArr` over a JavaScript array. -/
def arrToBufArrList : List JsVal → Except Unit (List JsVal)
  | [] => .ok []
  | v :: rest =>
    match arrToBufArr v with
    | .ok v2 =>
      match arrToBufArrList rest with
      | .ok rest2 => .ok (v2 :: rest2)
      | .error e => .error e
    | .error e => .error e
end

/-- The JavaScript test `x.length === 0`: true exactly for an empty
Buffer or an empty array (for a number or `undefined` the `.length`
property is `undefined`, and `undefined === 0` is false). -/
def jsLenZero : JsVal → Bool
  | .buf l => l.isEmpty
  | .arr l => l.isEmpty
  | .num _ => false
  | .undef => false

/-- KECCAK256_RLP from ethereumjs-util: the keccak-256 hash of the RLP
encoding of the empty string, the root hash of the empty trie. -/
def KECCAK256_RLP : List Nat :=
  [0x56, 0xe8, 0x1f, 0x17, 0x1b, 0xcc, 0x55, 0xa6,
   0xff, 0x83, 0x45, 0xe6, 0x92, 0xc0, 0xf8, 0x6e,
   0x5b, 0x48, 0xe0, 0x1b, 0x99, 0x6c, 0xad, 0xc0,
   0x01, 0x62, 0x2f, 0xb5, 0xe3, 0x63, 0xb4, 0x21]

/-- KECCAK256_NULL from ethereumjs-util: the keccak-256 hash of empty
input, the canonical hash of empty contract code. -/
def KECCAK256_NULL : List Nat :=
  [0xc5, 0xd2, 0x46, 0x01, 0x86, 0xf7, 0x23, 0x3c,
   0x92, 0x7e, 0x7d, 0xb2, 0xdc, 0xc7, 0x03, 0xc0,
   0xe5, 0x00, 0xb6, 0x53, 0xca, 0x82, 0x27, 0x3b,
   0x7b, 0xfa, 0xd8, 0x04, 0x5d, 0x85, 0xa4, 0x70]

/-- Big-endian digit extraction with structural fuel; the fuel `n` is
always enough since a number has at most `n` base-256 digits. -/
def natBEAux : Nat → Nat → List Nat
  | 0, _ => []
  | _ + 1, 0 => []
  | f + 1, n => natBEAux f (n / 256) ++ [n % 256]

/-- Minimal big-endian byte representation of a natural number; the
number 0 is represented by no bytes, as in the RLP library. -/
def natBE (n : Nat) : List Nat := natBEAux n n

/-- RLP length prefix: for a payload shorter than 56 bytes a single byte
`offset + len`, otherwise `offset + 55 + |len bytes|` followed by the
big-endian length. -/
def encodeLength (len offset : Nat) : List Nat :=
  if len < 56 then [offset + len]
  else
    let lb := natBE len
    (offset + 55 + lb.length) :: lb

/-- RLP encoding of a byte string: a single byte below 0x80 encodes as
itself, otherwise the 0x80-offset length prefix followed by the bytes. -/
def rlpEncodeBytes : List Nat → List Nat
  | [b] => if b < 0x80 then [b] else encodeLength 1 0x80 ++ [b]
  | l => encodeLength l.length 0x80 ++ l

mutual
/-- RLP encoding of a JavaScript value as the rlp package encodes it:
Buffers as byte strings, numbers via their minimal big-endian bytes,
`undefined` as the empty byte string, arrays as RLP lists. -/
def rlpEncode : JsVal → List Nat
  | .buf l => rlpEncodeBytes l
  | .num n => rlpEncodeBytes (natBE n)
  | .undef => rlpEncodeBytes []
  | .arr items =>
    let inner := rlpEncodeList items
    encodeLength inner.length 0xc0 ++ inner

/-- Concatenated RLP encodings of the elements of a list. -/
def rlpEncodeList : List JsVal → List Nat
  | [] => []
  | v :: rest => rlpEncode v ++ rlpEncodeList rest
end

/-- The `convertSlimAccount` function of accountfetcher.ts, line for
line: copy the four fields `body[0] .. body[3]`; if
`arrToBufArr(body[2]).length === 0` replace field 2 by KECCAK256_RLP; if
`arrToBufArr(body[3]).length === 0` replace field 3 by KECCAK256_NULL;
return the RLP encoding of the resulting 4-tuple.  Any TypeError thrown
by `arrToBufArr` propagates as `.error`. -/
def convertSlimAccount (body : JsVal) : Except Unit (List Nat) :=
  match jsIndexE body 0 with
  | .error e => .error e
  | .ok c0 =>
  match jsIndexE body 1 with
  | .error e => .error e
  | .ok c1 =>
  match jsIndexE body 2 with
  | .error e => .error e
  | .ok c2 =>
  match jsIndexE body 3 with
  | .error e => .error e
  | .ok c3 =>
  match arrToBufArr c2 with
  | .error e => .error e
  | .ok a2 =>
  let cpy2 := if jsLenZero a2 then JsVal.buf KECCAK256_RLP else c2
  match arrToBufArr c3 with
  | .error e => .error e
  | .ok a3 =>
  let cpy3 := if jsLenZero a3 then JsVal.buf KECCAK256_NULL else c3
  .ok (rlpEncode (.arr [c0, c1, cpy2, cpy3]))

/-- The normalization described in the spec, written directly from its
words: substitute KECCAK256_RLP for an empty storage root, KECCAK256_NULL
for an empty code hash, leave the other fields unchanged, and RLP-encode
the resulting 4-tuple. -/
def normalizeSpec (b0 b1 b2 b3 : List Nat) : List Nat :=
  rlpEncode (.arr [.buf b0, .buf b1,
    .buf (if b2 = [] then KECCAK256_RLP else b2),
    .buf (if b3 = [] then KECCAK256_NULL else b3)])

/-- One wire-level account record as returned by getAccountRange:
a 256-bit hash and the untyped slim body. -/
structure AccountData where
  hash : List Nat
  body : JsVal

/-- A JobTask of the AccountFetcher: the key range [origin, limit). -/
structure JobTask where
  origin : List Nat
  limit : List Nat
deriving DecidableEq

/-- The structured response of peer.snap.getAccountRange.  Each field is
`none` when the corresponding property is null or undefined; note that a
present-but-empty list is `some []`, which is truthy in JavaScript. -/
structure RangeResult where
  accounts : Option (List AccountData)
  proof : Option (List (List Nat))

/-- A trie is modelled as a list of (key, value) put operations, most
recent first; `get` returns the value of the most recent put for the key.
This models the fresh in-memory Trie / CheckpointTrie instances of the
source, whose put/get behave as a finite map.  Modelled from the spec:
the Trie implementation lives in the trie package of the monorepo, not in
the files at hand; the spec describes building a fresh, empty trie,
inserting every pair, and independently retrieving each pair. -/
def TrieModel : Type := List (List Nat × List Nat)

/-- Record a (key, value) put, shadowing any earlier put for the key. -/
def triePut (tr : TrieModel) (k v : List Nat) : TrieModel := (k, v) :: tr

/-- Retrieve the most recently put value for a key, if any. -/
def trieGet (tr : TrieModel) (k : List Nat) : Option (List Nat) :=
  (List.find? (fun p => p.1 == k) tr).map (fun p => p.2)

/-- Apply a list of (key, value) puts to a trie, in order. -/
def putList (tr : TrieModel) (kvs : List (List Nat × List Nat)) : TrieModel :=
  kvs.foldl (fun t kv => kv :: t) tr

/-- The mutable fields of an AccountFetcher, plus the base Fetcher's
queue of not-yet-assigned tasks.  `inQueue` is modelled from the spec:
the generic Fetcher engine (fetcher.ts) is not among the files at hand;
the spec says `enqueueTask(task)` appends a JobTask and queued tasks
remain schedulable until dispatched or dropped. -/
structure AccountFetcherState where
  root : List Nat
  origin : List Nat
  limit : List Nat
  bytes : Nat
  accountTrie : TrieModel
  inQueue : List JobTask

/-- The arguments request() passes to trie.verifyRangeProof, in source
order: root hash, first key, last key (undefined when no accounts were
returned), keys, values, proof. -/
structure VerifyArgs where
  root : List Nat
  firstKey : List Nat
  lastKey : Option (List Nat)
  keys : List (List Nat)
  values : List (List Nat)
  proof : List (List Nat)

/-- Buffer.compare: lexicographic byte comparison, a strict prefix
comparing less than the longer buffer; returns -1, 0 or 1. -/
def bufCompare : List Nat → List Nat → Int
  | [], [] => 0
  | [], _ :: _ => -1
  | _ :: _, [] => 1
  | a :: as, b :: bs => if a < b then -1 else if b < a then 1 else bufCompare as bs

/-- The ordering anomaly request() logs: some adjacent pair of returned
hashes has `accounts[i].hash.compare(accounts[i+1].hash) === 1`. -/
def hasOrderAnomaly : List (List Nat) → Bool
  | a :: b :: rest => (bufCompare a b == 1) || hasOrderAnomaly (b :: rest)
  | _ => false

/-- The first loop of request(): convert every account body with
convertSlimAccount, in order; a thrown TypeError aborts the loop and
propagates out of request(). -/
def convertAll : List AccountData → Except Unit (List (List Nat))
  | [] => .ok []
  | a :: rest =>
    match convertSlimAccount a.body with
    | .error e => .error e
    | .ok v =>
      match convertAll rest with
      | .error e => .error e
      | .ok vs => .ok (v :: vs)

/-- The transient trie request() builds: a fresh empty Trie into which
every (hash, converted value) pair is put, in response order. -/
def buildTrie (accs : List AccountData) (vals : List (List Nat)) : TrieModel :=
  putList [] ((accs.map (fun a => a.hash)).zip vals)

/-- The argument tuple request() passes to verifyRangeProof: the
fetcher-wide `this.root` and `this.origin`, the last returned hash
(`hashes[hashes.length - 1]`), the hashes, the converted values, and the
peer's proof. -/
def verifyArgsOf (st : AccountFetcherState) (accs : List AccountData)
    (vals : List (List Nat)) (prf : List (List Nat)) : VerifyArgs :=
  { root := st.root
    firstKey := st.origin
    lastKey := (accs.map (fun a => a.hash)).getLast?
    keys := accs.map (fun a => a.hash)
    values := vals
    proof := prf }

/-- The post-verification loop of request(): for each account, retrieve
its hash from the transient trie and compare with the expected converted
value; `.ok false` means some pair was missing or mismatched. -/
def postCheckOk (tr : TrieModel) : List AccountData → Except Unit Bool
  | [] => .ok true
  | a :: rest =>
    match convertSlimAccount a.body with
    | .error e => .error e
    | .ok expect =>
      if trieGet tr a.hash = some expect then postCheckOk tr rest else .ok false

/-- The request() method of AccountFetcher, with the network externalized:
`rangeResult` is what `peer.snap.getAccountRange` resolved to for the
task's range, and `V` is the verifyRangeProof function of the transient
trie (`.error` models a thrown error, which the source catches).
Result `.ok none` is the `undefined` requeue signal, `.ok (some accs)`
is a returned batch, `.error` models request() itself throwing.  The
task `t` is used only for the externalized network call and the debug
strings, so the computation does not depend on it; the ordering check of
the first loop only logs (`hasOrderAnomaly`) and does not alter control
flow. -/
def request (st : AccountFetcherState) (t : JobTask)
    (rangeResult : Option RangeResult)
    (V : VerifyArgs → Except Unit Bool) :
    Except Unit (Option (List AccountData)) :=
  match rangeResult with
  | none => .ok none
  | some rr =>
    match rr.accounts, rr.proof with
    | some accs, some prf =>
      match convertAll accs with
      | .error e => .error e
      | .ok vals =>
        match V (verifyArgsOf st accs vals prf) with
        | .error _ => .ok none
        | .ok false => .ok none
        | .ok true =>
          match postCheckOk (buildTrie accs vals) accs with
          | .error e => .error e
          | .ok b => if b then .ok (some accs) else .ok none
    | _, _ => .ok none

/-- request() as a state transformer: the method reads `this.root`,
`this.origin` and `this.bytes` but assigns no field of `this`, so the
fetcher state is returned unchanged alongside the result. -/
def requestStep (st : AccountFetcherState) (t : JobTask)
    (rangeResult : Option RangeResult)
    (V : VerifyArgs → Except Unit Bool) :
    AccountFetcherState × Except Unit (Option (List AccountData)) :=
  (st, request st t rangeResult V)

/-- The loop of store(): put (hash, convertSlimAccount(body)) into the
persistent account trie for each record; a thrown conversion error lands
in the catch block, which only logs, so the loop stops and the remaining
records are skipped without any error escaping. -/
def storeLoop (tr : TrieModel) : List AccountData → TrieModel
  | [] => tr
  | a :: rest =>
    match convertSlimAccount a.body with
    | .ok v => storeLoop (triePut tr a.hash v) rest
    | .error _ => tr

/-- The store() method of AccountFetcher: writes the batch into
`this.accountTrie`, catching and logging any error; it never re-raises
and touches no other field. -/
def store (st : AccountFetcherState) (result : List AccountData) :
    AccountFetcherState :=
  { st with accountTrie := storeLoop st.accountTrie result }

/-- The tasks() method: pushes the single task { origin, limit } built
from the fetcher's current cursor fields and returns it; no field of
`this` is assigned, so the state is returned unchanged. -/
def tasks (st : AccountFetcherState) : List JobTask × AccountFetcherState :=
  ([{ origin := st.origin, limit := st.limit }], st)

/-- Modelled from the spec: the base Fetcher's enqueueTask appends a
JobTask to the queue of schedulable tasks (fetcher.ts is not among the
files at hand). -/
def enqueueTask (st : AccountFetcherState) (t : JobTask) : AccountFetcherState :=
  { st with inQueue := st.inQueue ++ [t] }

/-- The nextTasks() method: generate tasks from the current cursor and
enqueue each of them. -/
def nextTasks (st : AccountFetcherState) : AccountFetcherState :=
  let p := tasks st
  p.1.foldl enqueueTask p.2

/-- The clear() method of AccountFetcher as written in the source: its
body is a bare `return`, so it performs no state change at all. -/
def clear (st : AccountFetcherState) : AccountFetcherState := st

/-! Concrete fixtures used by witnesses and counterexamples. -/

/-- A slim body whose four fields are all non-empty single bytes. -/
def exBody1 : JsVal := .arr [.buf [1], .buf [2], .buf [3], .buf [4]]

/-- A one-account batch. -/
def exAccs1 : List AccountData := [{ hash := [0xaa], body := exBody1 }]

/-- A batch of two accounts whose hashes strictly decrease. -/
def exAccs7 : List AccountData :=
  [{ hash := [1], body := exBody1 }, { hash := [0], body := exBody1 }]

/-- A fetcher state over the range [[0], [0xff]) with an empty queue. -/
def exSt : AccountFetcherState :=
  { root := [9], origin := [0], limit := [0xff], bytes := 50000,
    accountTrie := [], inQueue := [] }

/-- The task covering the configured range of `exSt`. -/
def exTask : JobTask := { origin := [0], limit := [0xff] }

/-- A fetcher state whose queue holds one schedulable task. -/
def exStQ : AccountFetcherState := { exSt with inQueue := [exTask] }

/-- A slim body with empty storage-root and code-hash fields. -/
def slimX0 : JsVal := .arr [.buf [], .buf [], .buf [], .buf []]

/-- Whether a conversion produced bytes rather than throwing. -/
def isOkBytes : Except Unit (List Nat) → Bool
  | .ok _ => true
  | .error _ => false

/-! Claim theorems. -/

/-- Claim C2: for every 4-field wire account body, convertSlimAccount
substitutes KECCAK256_RLP for an empty storage-root field and
KECCAK256_NULL for an empty code-hash field, passes non-empty fields
through unchanged, and returns the RLP encoding of the resulting
4-tuple. -/
theorem convertSlimAccount_normalizes (b0 b1 b2 b3 : List Nat) :
    convertSlimAccount (.arr [.buf b0, .buf b1, .buf b2, .buf b3]) =
      .ok (normalizeSpec b0 b1 b2 b3) := by
  cases b2 <;> cases b3 <;> rfl

/-- Claim C9, counterexample: convertSlimAccount applied to its own
output is not the identity on that output — the first application
succeeds on a wire record with empty fields, while feeding the resulting
encoded Buffer back in throws a TypeError (indexing the Buffer yields
numbers, and arrToBufArr calls Buffer.from on a number). -/
theorem convertSlimAccount_double_application_throws :
    isOkBytes (convertSlimAccount slimX0) = true ∧
      Except.bind (convertSlimAccount slimX0)
        (fun bs => convertSlimAccount (JsVal.buf bs)) = .error () :=
  ⟨rfl, rfl⟩

/-- Claim C9 (amended): the field-substitution step of normalization is
idempotent — applying convertSlimAccount to the wire 4-tuple whose
storage-root and code-hash fields have already been substituted yields
the same encoding as applying it to the original tuple, because the
substituted sentinel hashes are non-empty. -/
theorem convertSlimAccount_substitution_idempotent (b0 b1 b2 b3 : List Nat) :
    convertSlimAccount (.arr [.buf b0, .buf b1,
        .buf (if b2 = [] then KECCAK256_RLP else b2),
        .buf (if b3 = [] then KECCAK256_NULL else b3)]) =
      convertSlimAccount (.arr [.buf b0, .buf b1, .buf b2, .buf b3]) := by
  cases b2 <;> cases b3 <;> rfl

/-- Claim C4 (code bug): tasks() emits one task covering the whole
remaining range but never advances the origin cursor — the state is
returned unchanged, a second call emits the identical range again, and
two rounds of nextTasks() enqueue the same full-range task twice,
overlapping instead of partitioning. -/
theorem tasks_repeats_full_range_without_advancing :
    (tasks exSt).1 = [{ origin := exSt.origin, limit := exSt.limit }] ∧
    (tasks exSt).2 = exSt ∧
    (tasks ((tasks exSt).2)).1 = (tasks exSt).1 ∧
    (nextTasks (nextTasks exSt)).inQueue =
      [{ origin := [0], limit := [0xff] }, { origin := [0], limit := [0xff] }] :=
  ⟨rfl, rfl, rfl, rfl⟩

/-- Claim C6 (code bug): clear() is the identity on the fetcher state, so
a task sitting in the queue before the call is still there afterwards —
nothing is dropped. -/
theorem clear_leaves_queued_tasks :
    (∀ st, clear st = st) ∧ (clear exStQ).inQueue = [exTask] :=
  ⟨fun _ => rfl, rfl⟩

/-- Claim C8: request() never mutates the persistent account trie — the
state transformer returns the fetcher state unchanged, the result is
independent of the accountTrie field, and of all modelled operations
only store() touches accountTrie (tasks, enqueueTask, nextTasks and
clear all preserve it). -/
theorem request_never_mutates_persistent_trie :
    (∀ st t rrOpt V, (requestStep st t rrOpt V).1 = st) ∧
    (∀ st t rrOpt V tr,
      request { st with accountTrie := tr } t rrOpt V = request st t rrOpt V) ∧
    (∀ st, ((tasks st).2).accountTrie = st.accountTrie) ∧
    (∀ st tk, (enqueueTask st tk).accountTrie = st.accountTrie) ∧
    (∀ st, (nextTasks st).accountTrie = st.accountTrie) ∧
    (∀ st, (clear st).accountTrie = st.accountTrie) :=
  ⟨fun _ _ _ _ => rfl, fun _ _ _ _ _ => rfl, fun _ => rfl,
   fun _ _ => rfl, fun _ => rfl, fun _ => rfl⟩

/-- Claim C10: request() passes the fetcher-wide configured origin
(this.origin) as the first key of the proven range — the job task plays
no role after the response is in hand — and the hash of the last
returned account as the last key; moreover the verifier is consulted
only at those arguments: two verifiers agreeing there make request()
agree. -/
theorem request_verifies_against_fetcher_origin :
    (∀ st accs vals prf, (verifyArgsOf st accs vals prf).firstKey = st.origin) ∧
    (∀ st accs vals prf, (verifyArgsOf st accs vals prf).lastKey =
        (accs.map (fun a => a.hash)).getLast?) ∧
    (∀ st t1 t2 rrOpt V, request st t1 rrOpt V = request st t2 rrOpt V) ∧
    (∀ st t accs prf vals V W, convertAll accs = .ok vals →
      V (verifyArgsOf st accs vals prf) = W (verifyArgsOf st accs vals prf) →
      request st t (some { accounts := some accs, proof := some prf }) V =
        request st t (some { accounts := some accs, proof := some prf }) W) := by
  refine ⟨fun _ _ _ _ => rfl, fun _ _ _ _ => rfl, fun _ _ _ _ _ => rfl, ?_⟩
  intro st t accs prf vals V W h hVW
  simp only [request, h]
  rw [hVW]

/-- Claim C10, witness: two extensionally different verifiers that agree
at the arguments request() passes produce the same request() outcome on
a concrete batch. -/
theorem request_verifies_against_fetcher_origin_witness :
    request exSt exTask (some { accounts := some exAccs1, proof := some [[7]] })
        (fun _ => .ok true) =
      request exSt exTask (some { accounts := some exAccs1, proof := some [[7]] })
        (fun a => .ok (a.firstKey == exSt.origin)) :=
  request_verifies_against_fetcher_origin.2.2.2 exSt exTask exAccs1 [[7]]
    [[0xc4, 1, 2, 3, 4]] (fun _ => .ok true)
    (fun a => .ok (a.firstKey == exSt.origin)) rfl rfl

/-- Claim C1: once a response with accounts and proof present has been
converted, a verifier outcome of false or a thrown error, or a
post-verification retrieval mismatch against the transient trie, makes
request() return the undefined requeue signal; and whenever request()
does return a batch, it is the complete original accounts list, never a
partial one. -/
theorem request_failure_returns_undefined
    (st : AccountFetcherState) (t : JobTask)
    (V : VerifyArgs → Except Unit Bool)
    (accs : List AccountData) (prf : List (List Nat)) (vals : List (List Nat))
    (h3 : convertAll accs = .ok vals)
    (h4 : V (verifyArgsOf st accs vals prf) = .ok false ∨
          V (verifyArgsOf st accs vals prf) = .error () ∨
          postCheckOk (buildTrie accs vals) accs = .ok false) :
    request st t (some { accounts := some accs, proof := some prf }) V = .ok none ∧
    ∀ W res,
      request st t (some { accounts := some accs, proof := some prf }) W =
        .ok (some res) → res = accs := by
  constructor
  · simp only [request, h3]
    rcases h4 with h | h | h
    · rw [h]
    · rw [h]
    · cases hV : V (verifyArgsOf st accs vals prf) with
      | error e => rfl
      | ok b =>
        cases b
        · rfl
        · rw [h]; rfl
  · intro W res hres
    simp only [request, h3] at hres
    cases hW : W (verifyArgsOf st accs vals prf) with
    | error e => rw [hW] at hres; exact (Option.noConfusion (Except.ok.inj hres))
    | ok b =>
      rw [hW] at hres
      cases b
      · exact (Option.noConfusion (Except.ok.inj hres))
      · cases hP : postCheckOk (buildTrie accs vals) accs with
        | error e => rw [hP] at hres; exact (Except.noConfusion hres)
        | ok c =>
          rw [hP] at hres
          cases c
          · exact (Option.noConfusion (Except.ok.inj hres))
          · exact (Option.some.inj (Except.ok.inj hres)).symm

/-- Claim C1, witness: a concrete one-account response whose verifier
returns false is requeued. -/
theorem request_failure_returns_undefined_witness :
    request exSt exTask (some { accounts := some exAccs1, proof := some [[7]] })
        (fun _ => .ok false) = .ok none :=
  (request_failure_returns_undefined exSt exTask (fun _ => .ok false)
    exAccs1 [[7]] [[0xc4, 1, 2, 3, 4]] rfl (Or.inl rfl)).1

/-- Claim C3, counterexample: a response whose accounts and proof
properties are present but empty arrays passes the JavaScript falsiness
check (an empty array is truthy), so request() does not return the
requeue signal there — it proceeds to verification, and with an
accepting verifier returns the empty batch. -/
theorem request_empty_lists_pass_early_check :
    request exSt exTask (some { accounts := some [], proof := some [] })
      (fun _ => .ok true) = .ok (some []) := rfl

/-- Claim C3 (amended): request() returns the undefined requeue signal
before any trie insertion or verification — for every verifier —
exactly when the range result is null, or its accounts property is
null/undefined, or its proof property is null/undefined; a
present-but-empty array does not trigger this early return. -/
theorem request_missing_accounts_or_proof_requeues
    (st : AccountFetcherState) (t : JobTask) (rrOpt : Option RangeResult)
    (h : rrOpt = none ∨
         ∃ rr, rrOpt = some rr ∧ (rr.accounts = none ∨ rr.proof = none)) :
    ∀ V, request st t rrOpt V = .ok none := by
  intro V
  rcases h with h | ⟨rr, hrr, h⟩
  · subst h; rfl
  · subst hrr
    obtain ⟨oa, op⟩ := rr
    rcases h with h | h
    · cases oa with
      | none => cases op <;> rfl
      | some l => exact Option.noConfusion h
    · cases op with
      | none => cases oa <;> rfl
      | some l => exact Option.noConfusion h

/-- Claim C3 (amended), witness: a null range result is requeued. -/
theorem request_missing_accounts_or_proof_requeues_witness :
    request exSt exTask none (fun _ => .ok true) = .ok none :=
  request_missing_accounts_or_proof_requeues exSt exTask none (Or.inl rfl)
    (fun _ => .ok true)

/-- The store() loop equals applying the (hash, converted value) puts in
batch order whenever every conversion succeeds. -/
theorem storeLoop_eq_putList (r : List AccountData) :
    ∀ (tr : TrieModel) (vals : List (List Nat)), convertAll r = .ok vals →
      storeLoop tr r = putList tr ((r.map (fun a => a.hash)).zip vals) := by
  induction r with
  | nil =>
    intro tr vals h
    simp only [convertAll] at h
    injection h with h
    subst h
    rfl
  | cons a rest ih =>
    intro tr vals h
    simp only [convertAll] at h
    cases hc : convertSlimAccount a.body with
    | error e => rw [hc] at h; exact Except.noConfusion h
    | ok v =>
      rw [hc] at h
      cases hr : convertAll rest with
      | error e => rw [hr] at h; exact Except.noConfusion h
      | ok vs =>
        rw [hr] at h
        injection h with h
        subst h
        simp only [storeLoop, hc, List.map, List.zip, List.zipWith, putList,
          List.foldl]
        exact ih (triePut tr a.hash v) vs hr

/-- Claim C5: when every conversion succeeds, store() writes each
(hash, normalized body) pair of the batch into the persistent account
trie and changes nothing else; and on any batch at all, store()
completes, returning a state that differs at most in the account trie —
errors are swallowed, never re-raised or propagated. -/
theorem store_writes_normalized_batch
    (st : AccountFetcherState) (r : List AccountData) (vals : List (List Nat))
    (h : convertAll r = .ok vals) :
    store st r =
      { st with accountTrie :=
          putList st.accountTrie ((r.map (fun a => a.hash)).zip vals) } ∧
    ∀ r2, ∃ tr2, store st r2 = { st with accountTrie := tr2 } := by
  refine ⟨?_, fun r2 => ⟨storeLoop st.accountTrie r2, rfl⟩⟩
  simp only [store, storeLoop_eq_putList r st.accountTrie vals h]

/-- Claim C5, witness: storing a concrete one-account batch puts its
normalized pair into the persistent trie. -/
theorem store_writes_normalized_batch_witness :
    store exSt exAccs1 =
      { exSt with
        accountTrie := putList exSt.accountTrie
          ((exAccs1.map (fun a => a.hash)).zip [[0xc4, 1, 2, 3, 4]]) } :=
  (store_writes_normalized_batch exSt exAccs1 [[0xc4, 1, 2, 3, 4]] rfl).1

/-- Claim C7: a response whose hashes are not monotonically
non-decreasing is not rejected on that ground — the anomaly is only
logged, and with successful conversion, an accepting verifier and a
passing post-check, request() still returns the full batch. -/
theorem request_order_anomaly_not_rejected
    (st : AccountFetcherState) (t : JobTask)
    (V : VerifyArgs → Except Unit Bool)
    (accs : List AccountData) (prf : List (List Nat)) (vals : List (List Nat))
    (hmono : hasOrderAnomaly (accs.map (fun a => a.hash)) = true)
    (h3 : convertAll accs = .ok vals)
    (hV : V (verifyArgsOf st accs vals prf) = .ok true)
    (hpost : postCheckOk (buildTrie accs vals) accs = .ok true) :
    request st t (some { accounts := some accs, proof := some prf }) V =
      .ok (some accs) := by
  simp only [request, h3, hV, hpost]
  rfl

/-- Claim C7, witness: a two-account batch with strictly decreasing
hashes is accepted whole when verification succeeds. -/
theorem request_order_anomaly_not_rejected_witness :
    request exSt exTask (some { accounts := some exAccs7, proof := some [[7]] })
      (fun _ => .ok true) = .ok (some exAccs7) :=
  request_order_anomaly_not_rejected exSt exTask (fun _ => .ok true)
    exAccs7 [[7]] [[0xc4, 1, 2, 3, 4], [0xc4, 1, 2, 3, 4]] rfl rfl rfl rfl

end EthSnap
